import Mathlib

/-!
Shallow embedding of the Controller of src/controller.py (a restaurant-directory
desktop app backed by a document store), together with proofs about the claims
of its specification.

Modelling conventions:
* JSON numbers that the program treats as floats are modelled as rationals
  (coordinates, cached distances); the transcendental distance function
  geodistance is modelled separately over the reals.
* A nullable coordinate pair [lng, lat] is Option (Option ℚ × Option ℚ):
  the outer Option is the whole value being null, the inner ones are null
  components.  Python truthiness of a float (0.0 is falsy) is truthyNum.
* The document store (the mycol collection handle) is a List Rstrt in natural
  (insertion) order; find is a filter in that order, find_one with a
  descending sort on restaurant_id returns the maximal id in String order
  (the store compares ids as strings), update_one patches the first match.
* Operations that can raise a Python exception return Controller × Bool,
  the Bool being true when the call raises; the returned state is the state
  at the moment the exception escapes (partial mutations persist).
* A result-set entry is the dictionary update_rstrts builds: keys
  restaurant_id, name and dist.  new_rstrt prepends a full record dictionary
  that carries no dist key at all; Entry.dist is an Option so that the absent
  key is representable (none).
-/

namespace RestDemo

/-- One element of the grades array of a record. -/
structure Grade where
  grade : String
  score : Int
  date : Int
deriving DecidableEq

/-- The address sub-document of a record. -/
structure Address where
  building : String
  coord : Option (Option ℚ × Option ℚ)
  street : String
  zipcode : String
deriving DecidableEq

/-- One persisted restaurant document. -/
structure Rstrt where
  restaurant_id : String
  name : String
  cuisine : String
  borough : String
  address : Address
  grades : List Grade
deriving DecidableEq

/-- One entry of the in-memory result set filtered_rstrts.  dist = none models
the absence of the dist key (the entries prepended by new_rstrt have none). -/
structure Entry where
  restaurant_id : String
  name : String
  dist : Option ℚ
deriving DecidableEq

/-- The search condition: a mapping with the four optional keys; none models
an absent key. -/
structure Condition where
  name : Option String
  borough : Option String
  street : Option String
  zipcode : Option String
deriving DecidableEq

/-- The state owned by the Controller object, plus the backing collection. -/
structure Controller where
  store : List Rstrt
  filtered_rstrts : List Entry
  cur_index : Option Int
  cur_rstrt : Option Rstrt
  cur_coord : ℚ × ℚ
deriving DecidableEq

/-- The sentinel distance used for unknown coordinates. -/
def SENTINEL : ℚ := 99999.99

/-- Python truthiness of a nullable number: null and 0.0 are falsy. -/
def truthyNum : Option ℚ → Bool
  | none => false
  | some x => decide (x ≠ 0)

/-- The distance value the code stores for components lng and lat, given the
distance function gd (modelling self.geodistance) and the reference
coordinate: the geodistance when both components are truthy, else the
sentinel.  Mirrors the guard "if lng and lat" / "if coord[0] and coord[1]". -/
def distValue (gd : ℚ → ℚ → ℚ → ℚ → ℚ) (ref : ℚ × ℚ) (lng lat : Option ℚ) : ℚ :=
  if truthyNum lng && truthyNum lat then gd (lng.getD 0) (lat.getD 0) ref.1 ref.2
  else SENTINEL

/-- Distance for a whole nullable coordinate pair; a null coordinate is falsy
("if coord and coord[0] and coord[1]"), lines 78-84 of controller.py. -/
def distOf (gd : ℚ → ℚ → ℚ → ℚ → ℚ) (ref : ℚ × ℚ) :
    Option (Option ℚ × Option ℚ) → ℚ
  | some (c0, c1) => distValue gd ref c0 c1
  | none => SENTINEL

/-- Case-folded character list of a string. -/
def lowerChars (s : String) : List Char := s.data.map Char.toLower

/-- Whether the first list is an initial segment of the second. -/
def charsLead : List Char → List Char → Bool
  | [], _ => true
  | _ :: _, [] => false
  | a :: as, b :: bs => a == b && charsLead as bs

/-- Whether the first list occurs contiguously inside the second. -/
def charsOccur (nee : List Char) : List Char → Bool
  | [] => charsLead nee []
  | c :: t => charsLead nee (c :: t) || charsOccur nee t

/-- Model of the store evaluating the query regex "(.*)(pat)(.*)" with the
case-insensitive option against a string field: case-insensitive substring
containment.  (Regex metacharacters inside pat are not modelled; for plain
text patterns the regex is exactly unanchored containment.) -/
def regexCI (pat field : String) : Bool :=
  charsOccur (lowerChars pat) (lowerChars field)

/-- The query dictionary built by update_rstrts: for each key, the pattern
text of the regex constraint placed on the corresponding field, if any. -/
structure Query where
  name : Option String
  borough : Option String
  street : Option String
  zipcode : Option String
deriving DecidableEq

/-- One key of the query: present exactly when the condition contains the key
with a non-empty value ("if condition.__contains__(k) and not condition[k]
== ''"), lines 64-71 of controller.py. -/
def qkey : Option String → Option String
  | none => none
  | some s => if s = "" then none else some s

/-- The query update_rstrts builds from the condition. -/
def buildQuery (cond : Condition) : Query :=
  { name := qkey cond.name
    borough := qkey cond.borough
    street := qkey cond.street
    zipcode := qkey cond.zipcode }

/-- Whether one optional regex constraint accepts a field value. -/
def constraintOK : Option String → String → Bool
  | none, _ => true
  | some pat, field => regexCI pat field

/-- Whether a store document matches the query (conjunction of the four
optional constraints, street and zipcode against the address). -/
def matchesQuery (q : Query) (r : Rstrt) : Bool :=
  constraintOK q.name r.name &&
  constraintOK q.borough r.borough &&
  constraintOK q.street r.address.street &&
  constraintOK q.zipcode r.address.zipcode

/-- mycol.find(query): the matching documents in collection order. -/
def findQuery (store : List Rstrt) (q : Query) : List Rstrt :=
  store.filter (matchesQuery q)

/-- The sort key comparison "key=lambda r:r['dist']" (only ever evaluated on
entries that carry a dist key). -/
def distLE (a b : Entry) : Bool := decide (a.dist.getD 0 ≤ b.dist.getD 0)

/-- The result set update_rstrts builds before sorting: the projection of each
matching document to restaurant_id and name plus the computed dist key,
lines 72-84 of controller.py. -/
def rawResults (gd : ℚ → ℚ → ℚ → ℚ → ℚ) (c : Controller) (cond : Condition) :
    List Entry :=
  (findQuery c.store (buildQuery cond)).map fun r =>
    { restaurant_id := r.restaurant_id
      name := r.name
      dist := some (distOf gd c.cur_coord r.address.coord) }

/-- update_rstrts (lines 61-85): replace the result set with the sorted
projection of the matching documents.  gd models self.geodistance. -/
def update_rstrts (gd : ℚ → ℚ → ℚ → ℚ → ℚ) (c : Controller) (cond : Condition) :
    Controller :=
  { c with filtered_rstrts := (rawResults gd c cond).mergeSort distLE }

/-- Normalization of a Python list index: negative indices count from the
end of the list. -/
def pyNorm (n : Nat) (i : Int) : Int := if i < 0 then i + n else i

/-- Python list subscription with an Int index; an index out of range raises
IndexError (modelled as none). -/
def pyGet {α : Type} (l : List α) (i : Int) : Option α :=
  if h : 0 ≤ pyNorm l.length i ∧ pyNorm l.length i < (l.length : Int) then
    some (l.get ⟨(pyNorm l.length i).toNat, by omega⟩)
  else none

/-- mycol.find({restaurant_id: rid}) followed by taking the first result;
none models the cursor being empty (res[0] would raise). -/
def findOneById (store : List Rstrt) (rid : String) : Option Rstrt :=
  store.find? fun r => r.restaurant_id == rid

/-- update_cur_rstrt (lines 51-59): clear the selection, then, for a non-null
index, record it, read the id of the entry at that position (IndexError if
out of range) and hydrate the current record from the store.  The Bool is
true when the call raises; the state returned is the one the exception
leaves behind. -/
def update_cur_rstrt (c : Controller) (index : Option Int) : Controller × Bool :=
  let c0 := { c with cur_index := none, cur_rstrt := none }
  match index with
  | none => (c0, false)
  | some i =>
    let c1 := { c0 with cur_index := some i }
    match pyGet c1.filtered_rstrts i with
    | none => (c1, true)
    | some e =>
      match findOneById c1.store e.restaurant_id with
      | none => (c1, true)
      | some r => ({ c1 with cur_rstrt := some r }, false)

/-- update_one: apply f to the first element satisfying p, keep the rest. -/
def updateFirst {α : Type} (p : α → Bool) (f : α → α) : List α → List α
  | [] => []
  | x :: xs => if p x then f x :: xs else x :: updateFirst p f xs

/-- edit_address (lines 94-100): replace the whole address sub-document with
the given fields plus the coordinate taken from the current record, in the
store and in the current record; no-op without a selection. -/
def edit_address (c : Controller) (building street zipcode : String) :
    Controller :=
  match c.cur_rstrt with
  | none => c
  | some cr =>
    let newAddr : Address :=
      { building := building
        coord := cr.address.coord
        street := street
        zipcode := zipcode }
    { c with
      store := updateFirst (fun r => r.restaurant_id == cr.restaurant_id)
        (fun r => { r with address := newAddr }) c.store
      cur_rstrt := some { cr with address := newAddr } }

/-- The loop of edit_coord over the result set: patch the dist of the first
entry whose restaurant_id matches and stop (the function returns inside the
loop); none when no entry matches. -/
def patchFirst (gd : ℚ → ℚ → ℚ → ℚ → ℚ) (ref : ℚ × ℚ) (rid : String)
    (lng lat : Option ℚ) : List Entry → Option (List Entry)
  | [] => none
  | e :: es =>
    if e.restaurant_id == rid then
      some ({ e with dist := some (distValue gd ref lng lat) } :: es)
    else (patchFirst gd ref rid lng lat es).map (e :: ·)

/-- edit_coord (lines 102-117): no-op without a selection; otherwise set
address.coord to [lng, lat] in the store and the current record, then patch
the dist of the first matching result-set entry and return; only when no
entry matches does control reach the final sort of the result set.  That
sort evaluates the dist key of every entry, so it raises KeyError when some
entry has no dist (Bool true, list unchanged: CPython computes all sort keys
before it reorders). -/
def edit_coord (gd : ℚ → ℚ → ℚ → ℚ → ℚ) (c : Controller) (lng lat : Option ℚ) :
    Controller × Bool :=
  match c.cur_rstrt with
  | none => (c, false)
  | some cr =>
    let rid := cr.restaurant_id
    let newCoord : Option (Option ℚ × Option ℚ) := some (lng, lat)
    let store1 := updateFirst (fun r => r.restaurant_id == rid)
      (fun r => { r with address := { r.address with coord := newCoord } })
      c.store
    let cr1 := { cr with address := { cr.address with coord := newCoord } }
    let filraise : List Entry × Bool :=
      match patchFirst gd c.cur_coord rid lng lat c.filtered_rstrts with
      | some l => (l, false)
      | none =>
        if c.filtered_rstrts.all (fun e => e.dist.isSome) then
          (c.filtered_rstrts.mergeSort distLE, false)
        else (c.filtered_rstrts, true)
    ({ c with
        store := store1
        cur_rstrt := some cr1
        filtered_rstrts := filraise.1 },
      filraise.2)

/-- del_all (lines 119-122): batch-delete every store document whose id occurs
in the current result set, empty the result set and null the current record
(cur_index is not touched by this function). -/
def del_all (c : Controller) : Controller :=
  let ids := c.filtered_rstrts.map (·.restaurant_id)
  { c with
    store := c.store.filter fun r => !(ids.contains r.restaurant_id)
    filtered_rstrts := []
    cur_rstrt := none }

/-- The module-level default record template EMPTY_RSTRT (lines 191-203);
its coord is the two-element list [null, null]. -/
def EMPTY_RSTRT : Rstrt :=
  { restaurant_id := ""
    name := ""
    cuisine := ""
    borough := ""
    address :=
      { building := ""
        coord := some (none, none)
        street := ""
        zipcode := "" }
    grades := [] }

/-- Strict lexicographic order on sequences of natural numbers. -/
def natsLT : List Nat → List Nat → Bool
  | [], [] => false
  | [], _ :: _ => true
  | _ :: _, [] => false
  | a :: as, b :: bs => a < b || (a == b && natsLT as bs)

/-- The store's binary comparison of two string ids: lexicographic on the
character codes (MongoDB compares strings bytewise; on the ASCII ids of
this data set that is the same order). -/
def strLT (a b : String) : Bool :=
  natsLT (a.data.map Char.toNat) (b.data.map Char.toNat)

/-- Non-strict version of the store's string order. -/
def strLE (a b : String) : Bool := !(strLT b a)

/-- Binary maximum in the store's string order. -/
def idMax (x y : String) : String := if strLT x y then y else x

/-- get_max_id (lines 141-146): find_one with a descending sort on
restaurant_id yields the id that is maximal in the store's string order;
when the collection is empty the subscription of None raises and the
fallback id floor is returned. -/
def get_max_id (store : List Rstrt) : String :=
  match store.map (·.restaurant_id) with
  | [] => "100000000"
  | x :: xs => xs.foldl idMax x

/-- Value of a decimal digit character, none for a non-digit. -/
def digitVal (ch : Char) : Option Nat :=
  if ch.isDigit then some (ch.toNat - Char.toNat ('0')) else none

/-- Accumulating decimal parse of a digit list. -/
def parseDigitsAux : List Char → Nat → Option Nat
  | [], acc => some acc
  | ch :: cs, acc =>
    match digitVal ch with
    | some d => parseDigitsAux cs (acc * 10 + d)
    | none => none

/-- Python int(s) on the strings this program produces: an optional leading
minus sign followed by at least one decimal digit; none models ValueError. -/
def pyInt (s : String) : Option Int :=
  match s.data with
  | [] => none
  | '-' :: cs =>
    if cs = [] then none
    else (parseDigitsAux cs 0).map fun n => -(n : Int)
  | cs => (parseDigitsAux cs 0).map fun n => (n : Int)

/-- new_rstrt (lines 133-139): copy the empty template, set name and the new
id str(int(get_max_id()) + 1), prepend the full record dictionary (which has
no dist key) to the result set, then insert it into the store.  int() raises
before any mutation when the max id is not numeric; the store insert raises
after the prepend when the unique index on restaurant_id is violated. -/
def new_rstrt (c : Controller) : Controller × Bool :=
  match pyInt (get_max_id c.store) with
  | none => (c, true)
  | some n =>
    let new_id := toString (n + 1)
    let new_r := { EMPTY_RSTRT with name := "untitled", restaurant_id := new_id }
    let entry : Entry := { restaurant_id := new_id, name := "untitled", dist := none }
    let c1 := { c with filtered_rstrts := entry :: c.filtered_rstrts }
    if c.store.any (fun r => r.restaurant_id == new_id) then (c1, true)
    else ({ c1 with store := c.store ++ [new_r] }, false)

/-- del_grade (lines 164-173): no-op without a selection; in the store the
unset of grades.index to null followed by the pull of nulls removes the
element at that position (our model has no null grades, and the unset of a
position beyond the array length does nothing); locally, del on the grades
list raises IndexError when the index is out of range. -/
def del_grade (c : Controller) (index : Nat) : Controller × Bool :=
  match c.cur_rstrt with
  | none => (c, false)
  | some cr =>
    let rid := cr.restaurant_id
    let store1 := updateFirst (fun r => r.restaurant_id == rid)
      (fun r => { r with grades := r.grades.eraseIdx index }) c.store
    if index < cr.grades.length then
      ({ c with
          store := store1
          cur_rstrt := some { cr with grades := cr.grades.eraseIdx index } },
        false)
    else ({ c with store := store1 }, true)

/-- Rounding to three decimal places, round(x, 3) on an ideal real: the
nearest multiple of 1/1000 (Python breaks exact ties to even, which no value
in this development attains). -/
noncomputable def round3 (x : ℝ) : ℝ := ((round (x * 1000) : ℤ) : ℝ) / 1000

/-- geodistance (lines 175-183): the Haversine great-circle distance over the
Earth mean radius 6371 km, in kilometers, rounded to three decimals.  This
is the real-number model of the float computation self.geodistance. -/
noncomputable def geodistance (lng1 lat1 lng2 lat2 : ℝ) : ℝ :=
  let lng1r := lng1 * (Real.pi / 180)
  let lat1r := lat1 * (Real.pi / 180)
  let lng2r := lng2 * (Real.pi / 180)
  let lat2r := lat2 * (Real.pi / 180)
  let dlon := lng2r - lng1r
  let dlat := lat2r - lat1r
  let a := Real.sin (dlat / 2) ^ 2 +
    Real.cos lat1r * Real.cos lat2r * Real.sin (dlon / 2) ^ 2
  let distance := 2 * Real.arcsin (Real.sqrt a) * 6371 * 1000
  round3 (distance / 1000)

/-- The search condition with no keys present; update_rstrts({}) uses it. -/
def emptyCondition : Condition :=
  { name := none, borough := none, street := none, zipcode := none }

/-- Written from the specification sentence for claim C6, independently of the
code: a record is returned iff every present non-empty key of the condition
is a case-insensitive unanchored substring of the corresponding field. -/
def specConstraint : Option String → String → Bool
  | none, _ => true
  | some s, field => if s = "" then true else regexCI s field

/-- Written from the specification sentence for claim C6: conjunction of the
four optional constraints, street and zipcode matched against the address. -/
def specMatches (cond : Condition) (r : Rstrt) : Bool :=
  specConstraint cond.name r.name &&
  specConstraint cond.borough r.borough &&
  specConstraint cond.street r.address.street &&
  specConstraint cond.zipcode r.address.zipcode

/-! ### Concrete fixtures used by counterexamples and witnesses -/

/-- A record with the given id, name and coordinate, other fields default. -/
def mkR (rid nm : String) (co : Option (Option ℚ × Option ℚ)) : Rstrt :=
  { restaurant_id := rid
    name := nm
    cuisine := ""
    borough := ""
    address := { building := "", coord := co, street := "", zipcode := "" }
    grades := [] }

/-- A controller state built from its parts, reference coordinate (0, 0). -/
def mkC (store : List Rstrt) (fil : List Entry) (ci : Option Int)
    (cr : Option Rstrt) : Controller :=
  { store := store
    filtered_rstrts := fil
    cur_index := ci
    cur_rstrt := cr
    cur_coord := (0, 0) }

/-- A distance function stand-in that returns a constant. -/
def gdConst (q : ℚ) : ℚ → ℚ → ℚ → ℚ → ℚ := fun _ _ _ _ => q

/-- A state whose result set is empty (any position is out of bounds). -/
def cEx1 : Controller := mkC [mkR ("9") ("a") none] [] none none

/-! ### Helper lemmas -/

theorem pyGet_eq_none {α : Type} (l : List α) (i : Int)
    (h : i < -(l.length : Int) ∨ (l.length : Int) ≤ i) : pyGet l i = none := by
  have hc : ¬ (0 ≤ pyNorm l.length i ∧ pyNorm l.length i < (l.length : Int)) := by
    unfold pyNorm; split <;> omega
  rw [pyGet, dif_neg hc]

theorem updateFirst_eq_of_forall_neg {α : Type} (p : α → Bool) (f : α → α)
    (l : List α) (h : ∀ x ∈ l, p x = false) : updateFirst p f l = l := by
  induction l with
  | nil => rfl
  | cons x xs ih =>
    rw [updateFirst]
    rw [h x (List.mem_cons_self x xs)]
    simp only [Bool.false_eq_true, if_false]
    rw [ih fun y hy => h y (List.mem_cons_of_mem x hy)]

theorem updateFirst_append_first {α : Type} (p : α → Bool) (f : α → α)
    (pre : List α) (x : α) (post : List α)
    (hpre : ∀ y ∈ pre, p y = false) (hx : p x = true) :
    updateFirst p f (pre ++ x :: post) = pre ++ f x :: post := by
  induction pre with
  | nil => simp [updateFirst, hx]
  | cons y ys ih =>
    rw [List.cons_append, updateFirst]
    rw [hpre y (List.mem_cons_self y ys)]
    simp only [Bool.false_eq_true, if_false, List.cons_append]
    rw [ih fun z hz => hpre z (List.mem_cons_of_mem y hz)]

theorem patchFirst_eq_none {gd : ℚ → ℚ → ℚ → ℚ → ℚ} {ref : ℚ × ℚ} {rid : String}
    {lng lat : Option ℚ} {l : List Entry}
    (h : ∀ e ∈ l, e.restaurant_id ≠ rid) :
    patchFirst gd ref rid lng lat l = none := by
  induction l with
  | nil => rfl
  | cons e es ih =>
    rw [patchFirst]
    have : (e.restaurant_id == rid) = false := by
      simpa using h e (List.mem_cons_self e es)
    rw [this]
    simp only [Bool.false_eq_true, if_false]
    rw [ih fun x hx => h x (List.mem_cons_of_mem e hx)]
    rfl

theorem patchFirst_append_first {gd : ℚ → ℚ → ℚ → ℚ → ℚ} {ref : ℚ × ℚ}
    {rid : String} {lng lat : Option ℚ} {pre : List Entry} {e : Entry}
    {post : List Entry}
    (hpre : ∀ y ∈ pre, y.restaurant_id ≠ rid) (he : e.restaurant_id = rid) :
    patchFirst gd ref rid lng lat (pre ++ e :: post) =
      some (pre ++ { e with dist := some (distValue gd ref lng lat) } :: post) := by
  induction pre with
  | nil =>
    rw [List.nil_append, patchFirst]
    have : (e.restaurant_id == rid) = true := by simpa using he
    rw [this]
    simp
  | cons y ys ih =>
    rw [List.cons_append, patchFirst]
    have : (y.restaurant_id == rid) = false := by
      simpa using hpre y (List.mem_cons_self y ys)
    rw [this]
    simp only [Bool.false_eq_true, if_false]
    rw [ih fun z hz => hpre z (List.mem_cons_of_mem y hz)]
    rfl

/-! ### C1 -/

/-- C1, counterexample to the claim as stated: with an empty result set,
position 0 is out of bounds, yet update_cur_rstrt raises (IndexError on the
subscription) and leaves currentIndex holding the position instead of
clearing it. -/
theorem C1_counterexample :
    (update_cur_rstrt cEx1 (some 0)).2 = true ∧
    ¬ (update_cur_rstrt cEx1 (some 0)).1.cur_index = none := by
  constructor
  · rfl
  · intro h
    simp [update_cur_rstrt, pyGet, pyNorm, cEx1, mkC] at h

/-- C1 (amended): for every position that is out of bounds for the current
result set, update_cur_rstrt first clears the selection, then re-assigns
currentIndex to the given position and raises an index error while reading
the result-set entry; afterwards currentRecord is none but currentIndex
holds the out-of-range position, and the call raises rather than returning
silently. -/
theorem C1_out_of_range_raises (c : Controller) (i : Int)
    (h : i < -(c.filtered_rstrts.length : Int) ∨
      (c.filtered_rstrts.length : Int) ≤ i) :
    (update_cur_rstrt c (some i)).2 = true ∧
    (update_cur_rstrt c (some i)).1.cur_rstrt = none ∧
    (update_cur_rstrt c (some i)).1.cur_index = some i := by
  have hp : pyGet c.filtered_rstrts i = none := pyGet_eq_none _ _ h
  simp [update_cur_rstrt, hp]

/-- Witness for C1: the amended theorem applied to the concrete state with an
empty result set and position 0. -/
theorem C1_out_of_range_raises_witness :
    (update_cur_rstrt cEx1 (some 0)).2 = true ∧
    (update_cur_rstrt cEx1 (some 0)).1.cur_rstrt = none ∧
    (update_cur_rstrt cEx1 (some 0)).1.cur_index = some 0 :=
  C1_out_of_range_raises cEx1 0 (by decide)

/-! ### C2 -/

/-- A state whose store holds ids whose string order disagrees with their
numeric order. -/
def cEx2 : Controller :=
  mkC [mkR ("9") ("a") none, mkR ("100") ("b") none] [] none none

theorem natsLT_irrefl (l : List Nat) : natsLT l l = false := by
  induction l with
  | nil => rfl
  | cons a as ih => simp [natsLT, ih]

theorem natsLT_trans {a b c : List Nat} (h1 : natsLT a b = true)
    (h2 : natsLT b c = true) : natsLT a c = true := by
  induction a generalizing b c with
  | nil =>
    cases b with
    | nil => simp [natsLT] at h1
    | cons y ys =>
      cases c with
      | nil => simp [natsLT] at h2
      | cons z zs => rfl
  | cons x xs ih =>
    cases b with
    | nil => simp [natsLT] at h1
    | cons y ys =>
      cases c with
      | nil => simp [natsLT] at h2
      | cons z zs =>
        simp only [natsLT, Bool.or_eq_true, Bool.and_eq_true, decide_eq_true_eq,
          beq_iff_eq] at h1 h2 ⊢
        rcases h1 with h1 | ⟨h1e, h1r⟩
        · rcases h2 with h2 | ⟨h2e, h2r⟩
          · exact Or.inl (by omega)
          · exact Or.inl (by omega)
        · rcases h2 with h2 | ⟨h2e, h2r⟩
          · exact Or.inl (by omega)
          · exact Or.inr ⟨by omega, ih h1r h2r⟩

theorem natsLT_conn {a b : List Nat} (h1 : natsLT a b = false)
    (h2 : natsLT b a = false) : a = b := by
  induction a generalizing b with
  | nil =>
    cases b with
    | nil => rfl
    | cons y ys => simp [natsLT] at h1
  | cons x xs ih =>
    cases b with
    | nil => simp [natsLT] at h2
    | cons y ys =>
      simp only [natsLT, Bool.or_eq_false_iff, Bool.and_eq_false_iff,
        decide_eq_false_iff_not, beq_eq_false_iff_ne, ne_eq] at h1 h2
      rcases h1 with ⟨hxy, h1r⟩
      rcases h2 with ⟨hyx, h2r⟩
      have hxyeq : x = y := by omega
      subst hxyeq
      rcases h1r with h | h1r
      · exact absurd rfl h
      · rcases h2r with h | h2r
        · exact absurd rfl h
        · rw [ih h1r h2r]

theorem strLE_refl (a : String) : strLE a a = true := by
  simp [strLE, strLT, natsLT_irrefl]

theorem strLE_trans {a b c : String} (h1 : strLE a b = true)
    (h2 : strLE b c = true) : strLE a c = true := by
  simp only [strLE, strLT, Bool.not_eq_true'] at h1 h2 ⊢
  by_contra hca
  rw [Bool.not_eq_false] at hca
  rcases hab : natsLT (a.data.map Char.toNat) (b.data.map Char.toNat) with _ | _
  · have heq := natsLT_conn h1 hab
    rw [← heq] at hca
    rw [hca] at h2
    cases h2
  · have := natsLT_trans hca hab
    rw [this] at h2
    cases h2

theorem strLE_of_strLT {a b : String} (h : strLT a b = true) :
    strLE a b = true := by
  simp only [strLE, strLT, Bool.not_eq_true'] at h ⊢
  by_contra hba
  rw [Bool.not_eq_false] at hba
  have := natsLT_trans h hba
  rw [natsLT_irrefl] at this
  cases this

theorem strLE_idMax_left (x y : String) : strLE x (idMax x y) = true := by
  unfold idMax
  split
  · exact strLE_of_strLT (by assumption)
  · exact strLE_refl x

theorem strLE_idMax_right (x y : String) : strLE y (idMax x y) = true := by
  unfold idMax
  split
  · exact strLE_refl y
  · rename_i h
    rw [Bool.not_eq_true] at h
    simpa [strLE] using h

theorem strLE_foldl_idMax (xs : List String) (x : String) :
    strLE x (xs.foldl idMax x) = true ∧
    ∀ y ∈ xs, strLE y (xs.foldl idMax x) = true := by
  induction xs generalizing x with
  | nil => exact ⟨strLE_refl x, by intro y hy; cases hy⟩
  | cons z zs ih =>
    obtain ⟨ha, hb⟩ := ih (idMax x z)
    refine ⟨strLE_trans (strLE_idMax_left x z) ha, ?_⟩
    intro y hy
    rcases List.mem_cons.mp hy with hy | hy
    · subst hy
      exact strLE_trans (strLE_idMax_right x y) ha
    · exact hb y hy

theorem get_max_id_is_ub (store : List Rstrt) (rid : String)
    (h : rid ∈ store.map (·.restaurant_id)) :
    strLE rid (get_max_id store) = true := by
  unfold get_max_id
  cases hm : store.map (·.restaurant_id) with
  | nil => rw [hm] at h; cases h
  | cons x xs =>
    rw [hm] at h
    rcases List.mem_cons.mp h with h | h
    · subst h
      exact (strLE_foldl_idMax xs rid).1
    · exact (strLE_foldl_idMax xs x).2 rid h

/-- C2, counterexample to the claim as stated: with prior ids 9 and 100 the
maximal id in the store's string order is the string 9, so the created
record is assigned id 10, which does not numerically exceed the prior
id 100. -/
theorem C2_counterexample :
    (new_rstrt cEx2).1.store.map (·.restaurant_id) = [("9"), ("100"), ("10")] ∧
    pyInt ("10") = some 10 ∧ pyInt ("100") = some 100 ∧ ¬ (100 : Int) < 10 := by
  decide

/-- C2 (amended): new_rstrt assigns the id str(int(m) + 1) where m is the id
that is maximal in string (lexicographic) order among the stored ids — the
numerically greatest only when string and numeric order agree — or the fixed
floor 100000000 when the store is empty; the record is the empty template
with name untitled; it is prepended to the result set, and appended to the
store when the insert does not raise. -/
theorem C2_new_rstrt_id (c : Controller) (n : Int)
    (h : pyInt (get_max_id c.store) = some n) :
    ((new_rstrt c).1.filtered_rstrts.head? = some
      { restaurant_id := toString (n + 1), name := "untitled", dist := none }) ∧
    ((new_rstrt c).2 = false →
      (new_rstrt c).1.store = c.store ++
        [{ EMPTY_RSTRT with
            name := "untitled", restaurant_id := toString (n + 1) }]) ∧
    (∀ rid ∈ c.store.map (·.restaurant_id),
      strLE rid (get_max_id c.store) = true) ∧
    (c.store = [] → get_max_id c.store = "100000000") := by
  refine ⟨?_, ?_, ?_, ?_⟩
  · simp only [new_rstrt, h]
    split <;> rfl
  · simp only [new_rstrt, h]
    split
    · intro hf
      simp at hf
    · intro _
      rfl
  · exact fun rid hrid => get_max_id_is_ub c.store rid hrid
  · intro hemp
    rw [hemp]
    rfl

/-- Witness for C2: the amended theorem at the concrete two-record store with
ids 9 and 100 (maximal string id 9, assigned id 10). -/
theorem C2_new_rstrt_id_witness :
    ((new_rstrt cEx2).1.filtered_rstrts.head? = some
      { restaurant_id := toString ((9 : Int) + 1), name := "untitled", dist := none }) ∧
    ((new_rstrt cEx2).2 = false →
      (new_rstrt cEx2).1.store = cEx2.store ++
        [{ EMPTY_RSTRT with
            name := "untitled", restaurant_id := toString ((9 : Int) + 1) }]) ∧
    (∀ rid ∈ cEx2.store.map (·.restaurant_id),
      strLE rid (get_max_id cEx2.store) = true) ∧
    (cEx2.store = [] → get_max_id cEx2.store = "100000000") :=
  C2_new_rstrt_id cEx2 9 (by decide)

/-! ### C10 -/

/-- C10: the entry new_rstrt prepends at position 0 carries no dist key at
all (not even the sentinel), the remaining entries are the previous result
set, so the result set no longer consists solely of entries that carry a
distance; every entry produced by update_rstrts does carry one, so the next
search restores that shape. -/
theorem C10_new_entry_without_dist (c : Controller) (n : Int)
    (h : pyInt (get_max_id c.store) = some n) :
    ((new_rstrt c).1.filtered_rstrts.head?.map (·.dist) = some none) ∧
    ((new_rstrt c).1.filtered_rstrts.tail = c.filtered_rstrts) ∧
    ¬ ((new_rstrt c).1.filtered_rstrts.all fun e => e.dist.isSome) ∧
    (∀ (gd : ℚ → ℚ → ℚ → ℚ → ℚ) (c1 : Controller) (cond : Condition),
      ∀ e ∈ (update_rstrts gd c1 cond).filtered_rstrts, e.dist.isSome) := by
  refine ⟨?_, ?_, ?_, ?_⟩
  · simp only [new_rstrt, h]
    split <;> rfl
  · simp only [new_rstrt, h]
    split <;> rfl
  · simp only [new_rstrt, h]
    split <;> simp
  · intro gd c1 cond e he
    simp only [update_rstrts, List.mem_mergeSort, rawResults, List.mem_map]
      at he
    obtain ⟨r, _, rfl⟩ := he
    rfl

/-- Witness for C10: the theorem at the concrete one-record store. -/
theorem C10_new_entry_without_dist_witness :
    ((new_rstrt cEx1).1.filtered_rstrts.head?.map (·.dist) = some none) ∧
    ((new_rstrt cEx1).1.filtered_rstrts.tail = cEx1.filtered_rstrts) ∧
    ¬ ((new_rstrt cEx1).1.filtered_rstrts.all fun e => e.dist.isSome) ∧
    (∀ (gd : ℚ → ℚ → ℚ → ℚ → ℚ) (c1 : Controller) (cond : Condition),
      ∀ e ∈ (update_rstrts gd c1 cond).filtered_rstrts, e.dist.isSome) :=
  C10_new_entry_without_dist cEx1 9 (by decide)

/-! ### C7 -/

/-- C7: with a record selected, editAddress replaces the address sub-document
with the given building, street and zipcode plus the coordinate taken
unchanged from the current record, both in the current record and in the
(first) matching store document; the coordinates of the selected record are
identical before and after, and no other state is touched. -/
theorem C7_edit_address (c : Controller) (cr : Rstrt) (b s z : String)
    (h : c.cur_rstrt = some cr) :
    ((edit_address c b s z).cur_rstrt = some { cr with address :=
      { building := b, coord := cr.address.coord, street := s, zipcode := z } }) ∧
    (((edit_address c b s z).cur_rstrt.map fun r => r.address.coord) =
      some cr.address.coord) ∧
    ((∀ r ∈ c.store, r.restaurant_id ≠ cr.restaurant_id) →
      (edit_address c b s z).store = c.store) ∧
    (∀ pre x post, c.store = pre ++ x :: post →
      (∀ y ∈ pre, y.restaurant_id ≠ cr.restaurant_id) →
      x.restaurant_id = cr.restaurant_id →
      (edit_address c b s z).store = pre ++ ({ x with address :=
        { building := b, coord := cr.address.coord, street := s,
          zipcode := z } }) :: post) ∧
    ((edit_address c b s z).filtered_rstrts = c.filtered_rstrts) ∧
    ((edit_address c b s z).cur_index = c.cur_index) ∧
    ((edit_address c b s z).cur_coord = c.cur_coord) := by
  refine ⟨?_, ?_, ?_, ?_, ?_, ?_, ?_⟩
  · simp [edit_address, h]
  · simp [edit_address, h]
  · intro hall
    simp only [edit_address, h]
    exact updateFirst_eq_of_forall_neg _ _ c.store fun r hr => by
      simpa using hall r hr
  · intro pre x post hsplit hpre hx
    simp only [edit_address, h, hsplit]
    rw [updateFirst_append_first]
    · intro y hy
      simpa using hpre y hy
    · simpa using hx
  · simp [edit_address, h]
  · simp [edit_address, h]
  · simp [edit_address, h]

/-- A record with a coordinate, selected, present in the store. -/
def rEx7 : Rstrt := mkR ("5") ("sel") (some (some 3, some 4))

/-- A state in which rEx7 is stored and selected. -/
def cEx7 : Controller := mkC [rEx7] [] (some 0) (some rEx7)

/-- Witness for C7: the theorem at the concrete selected record rEx7. -/
theorem C7_edit_address_witness :
    ((edit_address cEx7 ("b1") ("s1") ("z1")).cur_rstrt = some { rEx7 with
      address :=
        { building := "b1", coord := rEx7.address.coord,
          street := "s1", zipcode := "z1" } }) ∧
    (((edit_address cEx7 ("b1") ("s1") ("z1")).cur_rstrt.map
      fun r => r.address.coord) = some rEx7.address.coord) ∧
    ((∀ r ∈ cEx7.store, r.restaurant_id ≠ rEx7.restaurant_id) →
      (edit_address cEx7 ("b1") ("s1") ("z1")).store = cEx7.store) ∧
    (∀ pre x post, cEx7.store = pre ++ x :: post →
      (∀ y ∈ pre, y.restaurant_id ≠ rEx7.restaurant_id) →
      x.restaurant_id = rEx7.restaurant_id →
      (edit_address cEx7 ("b1") ("s1") ("z1")).store = pre ++ ({ x with
        address :=
          { building := "b1", coord := rEx7.address.coord,
            street := "s1", zipcode := "z1" } }) :: post) ∧
    ((edit_address cEx7 ("b1") ("s1") ("z1")).filtered_rstrts =
      cEx7.filtered_rstrts) ∧
    ((edit_address cEx7 ("b1") ("s1") ("z1")).cur_index = cEx7.cur_index) ∧
    ((edit_address cEx7 ("b1") ("s1") ("z1")).cur_coord = cEx7.cur_coord) :=
  C7_edit_address cEx7 rEx7 ("b1") ("s1") ("z1") rfl

/-! ### C8 -/

/-- C8: with a record selected whose grades sequence is g, del_grade at any
valid index i leaves currentRecord.grades equal to g with the element at
index i removed and the remaining elements in their original order, and the
call does not raise. -/
theorem C8_del_grade (c : Controller) (cr : Rstrt) (i : Nat)
    (h : c.cur_rstrt = some cr) (hi : i < cr.grades.length) :
    ((del_grade c i).1.cur_rstrt.map (·.grades)) =
      some (cr.grades.take i ++ cr.grades.drop (i + 1)) ∧
    (del_grade c i).2 = false := by
  simp only [del_grade, h]
  rw [if_pos hi]
  refine ⟨?_, rfl⟩
  simp [List.eraseIdx_eq_take_drop_succ]

/-- Two concrete grades. -/
def gEx1 : Grade := { grade := "A", score := 10, date := 0 }

/-- Another concrete grade. -/
def gEx2 : Grade := { grade := "B", score := 20, date := 1 }

/-- A record carrying two grades. -/
def rEx8 : Rstrt := { mkR ("7") ("g") none with grades := [gEx1, gEx2] }

/-- A state in which rEx8 is stored and selected. -/
def cEx8 : Controller := mkC [rEx8] [] none (some rEx8)

/-- Witness for C8: removing index 0 of the two-grade record leaves the
second grade. -/
theorem C8_del_grade_witness :
    ((del_grade cEx8 0).1.cur_rstrt.map (·.grades)) =
      some (rEx8.grades.take 0 ++ rEx8.grades.drop 1) ∧
    (del_grade cEx8 0).2 = false :=
  C8_del_grade cEx8 rEx8 0 rfl (by decide)

/-! ### C9 -/

/-- An entry referring to record A. -/
def eExA : Entry := { restaurant_id := "A", name := "a", dist := some 5 }

/-- A state with one record in the result set and a selection position. -/
def cEx9 : Controller :=
  mkC [mkR ("A") ("a") none, mkR ("C") ("c") none] [eExA] (some 0)
    (some (mkR ("A") ("a") none))

/-- C9, counterexample to the claim as stated: del_all empties the result set
and nulls currentRecord, but it does not clear currentIndex, so the
selection is not fully cleared. -/
theorem C9_counterexample :
    ¬ ((del_all cEx9).cur_index = none) ∧
    (del_all cEx9).cur_rstrt = none ∧
    (del_all cEx9).filtered_rstrts = [] := by
  refine ⟨?_, rfl, rfl⟩
  intro h
  simp [del_all, cEx9, mkC] at h

/-- C9 (amended): del_all deletes from the store exactly the records whose
ids appear in the current result set — every other record survives and is
returned by a subsequent unfiltered search — then empties the result set
and nulls currentRecord; currentIndex however is left unchanged, so the
selection is only partially cleared. -/
theorem C9_del_all (gd : ℚ → ℚ → ℚ → ℚ → ℚ) (c : Controller) :
    (∀ r : Rstrt, r ∈ (del_all c).store ↔ r ∈ c.store ∧
      r.restaurant_id ∉ c.filtered_rstrts.map (·.restaurant_id)) ∧
    (del_all c).filtered_rstrts = [] ∧
    (del_all c).cur_rstrt = none ∧
    (del_all c).cur_index = c.cur_index ∧
    (∀ r ∈ c.store,
      r.restaurant_id ∉ c.filtered_rstrts.map (·.restaurant_id) →
      ∃ e ∈ (update_rstrts gd (del_all c) emptyCondition).filtered_rstrts,
        e.restaurant_id = r.restaurant_id ∧ e.name = r.name) := by
  refine ⟨?_, rfl, rfl, rfl, ?_⟩
  · intro r
    simp [del_all, List.mem_filter]
  · intro r hr hnot
    have hmem : r ∈ (del_all c).store := by
      simp [del_all, List.mem_filter, hr]
      intro x hx hxr
      exact hnot (List.mem_map.mpr ⟨x, hx, hxr⟩)
    have hq : findQuery (del_all c).store (buildQuery emptyCondition) =
        (del_all c).store := by
      apply List.filter_eq_self.mpr
      intro x _
      rfl
    refine ⟨
      { restaurant_id := r.restaurant_id
        name := r.name
        dist := some (distOf gd (del_all c).cur_coord r.address.coord) },
      ?_, rfl, rfl⟩
    simp only [update_rstrts, List.mem_mergeSort, rawResults, hq]
    exact List.mem_map.mpr ⟨r, hmem, rfl⟩

/-- Witness for C9 (the amended theorem has only non-propositional binders,
instantiated here at a concrete state for concreteness). -/
theorem C9_del_all_witness :
    (∀ r : Rstrt, r ∈ (del_all cEx9).store ↔ r ∈ cEx9.store ∧
      r.restaurant_id ∉ cEx9.filtered_rstrts.map (·.restaurant_id)) ∧
    (del_all cEx9).filtered_rstrts = [] ∧
    (del_all cEx9).cur_rstrt = none ∧
    (del_all cEx9).cur_index = cEx9.cur_index ∧
    (∀ r ∈ cEx9.store,
      r.restaurant_id ∉ cEx9.filtered_rstrts.map (·.restaurant_id) →
      ∃ e ∈ (update_rstrts (gdConst 0) (del_all cEx9)
          emptyCondition).filtered_rstrts,
        e.restaurant_id = r.restaurant_id ∧ e.name = r.name) :=
  C9_del_all (gdConst 0) cEx9

/-! ### C3 -/

theorem distLE_trans (a b c : Entry) (h1 : distLE a b = true)
    (h2 : distLE b c = true) : distLE a c = true := by
  simp only [distLE, decide_eq_true_eq] at h1 h2 ⊢
  exact le_trans h1 h2

theorem distLE_total (a b : Entry) : (distLE a b || distLE b a) = true := by
  simp only [distLE, Bool.or_eq_true, decide_eq_true_eq]
  exact le_total _ _

/-- An entry referring to record C, nearer than eExA. -/
def eExC : Entry := { restaurant_id := "C", name := "c", dist := some 1 }

/-- A selected record whose id occurs in no result-set entry. -/
def rExX : Rstrt := mkR ("X") ("x") none

/-- A state selecting rExX while the result set holds other ids, out of
order by distance (5 before 1). -/
def cEx3 : Controller := mkC [rExX] [eExA, eExC] none (some rExX)

/-- C3, counterexample to the claim as stated: the selected id X occurs in no
result-set entry, yet edit_coord does not leave the result set unchanged —
control falls through to the sort, which reorders the entries (distance 1
moves before distance 5). -/
theorem C3_counterexample :
    (∀ e ∈ cEx3.filtered_rstrts, e.restaurant_id ≠ (("X") : String)) ∧
    cEx3.cur_rstrt.map (·.restaurant_id) = some ("X") ∧
    (edit_coord (gdConst 0) cEx3 (some 1) (some 1)).1.filtered_rstrts ≠
      cEx3.filtered_rstrts := by
  refine ⟨by decide, by decide, ?_⟩
  intro hEq
  have hc : cEx3.cur_rstrt = some rExX := rfl
  have hp : patchFirst (gdConst 0) cEx3.cur_coord rExX.restaurant_id
      (some 1) (some 1) cEx3.filtered_rstrts = none := by decide
  have hall : (cEx3.filtered_rstrts.all fun e => e.dist.isSome) = true := by
    decide
  have hfil : (edit_coord (gdConst 0) cEx3 (some 1) (some 1)).1.filtered_rstrts
      = cEx3.filtered_rstrts.mergeSort distLE := by
    simp only [edit_coord, hc, hp, hall, if_true]
  rw [hfil] at hEq
  have hsorted : (cEx3.filtered_rstrts.mergeSort distLE).Pairwise
      (fun a b => distLE a b = true) :=
    @List.sorted_mergeSort Entry distLE distLE_trans distLE_total
      cEx3.filtered_rstrts
  rw [hEq] at hsorted
  have hsorted2 : ([eExA, eExC] : List Entry).Pairwise
      (fun a b => distLE a b = true) := hsorted
  have hle : distLE eExA eExC = true :=
    (List.pairwise_cons.mp hsorted2).1 eExC (by simp)
  exact absurd hle (by decide)

/-- C3 (amended): with a record selected, edit_coord rewrites address.coord
in the first matching store document and in currentRecord; in the result
set, when some entry carries the selected id, only the first such entry is
patched — its dist becomes the geodistance when both components are truthy
(non-null and non-zero; a zero component also yields the sentinel) and the
sentinel otherwise — all positions are preserved and no re-sort happens;
when no entry carries the selected id, the result set is instead re-sorted
by dist (so it is not in general left unchanged). -/
theorem C3_edit_coord (gd : ℚ → ℚ → ℚ → ℚ → ℚ) (c : Controller) (cr : Rstrt)
    (lng lat : Option ℚ) (h : c.cur_rstrt = some cr) :
    ((edit_coord gd c lng lat).1.cur_rstrt = some { cr with
      address := { cr.address with coord := some (lng, lat) } }) ∧
    ((∀ r ∈ c.store, r.restaurant_id ≠ cr.restaurant_id) →
      (edit_coord gd c lng lat).1.store = c.store) ∧
    (∀ pre x post, c.store = pre ++ x :: post →
      (∀ y ∈ pre, y.restaurant_id ≠ cr.restaurant_id) →
      x.restaurant_id = cr.restaurant_id →
      (edit_coord gd c lng lat).1.store = pre ++ ({ x with
        address := { x.address with coord := some (lng, lat) } }) :: post) ∧
    (∀ pre e post, c.filtered_rstrts = pre ++ e :: post →
      (∀ y ∈ pre, y.restaurant_id ≠ cr.restaurant_id) →
      e.restaurant_id = cr.restaurant_id →
      (edit_coord gd c lng lat).2 = false ∧
      (edit_coord gd c lng lat).1.filtered_rstrts = pre ++ ({ e with
        dist := some (if truthyNum lng && truthyNum lat then
          gd (lng.getD 0) (lat.getD 0) c.cur_coord.1 c.cur_coord.2
          else SENTINEL) }) :: post) ∧
    ((∀ e ∈ c.filtered_rstrts, e.restaurant_id ≠ cr.restaurant_id) →
      (∀ e ∈ c.filtered_rstrts, e.dist.isSome) →
      (edit_coord gd c lng lat).2 = false ∧
      (edit_coord gd c lng lat).1.filtered_rstrts =
        c.filtered_rstrts.mergeSort distLE) ∧
    ((edit_coord gd c lng lat).1.cur_index = c.cur_index) ∧
    ((edit_coord gd c lng lat).1.cur_coord = c.cur_coord) := by
  refine ⟨?_, ?_, ?_, ?_, ?_, ?_, ?_⟩
  · simp only [edit_coord, h]
  · intro hall
    simp only [edit_coord, h]
    exact updateFirst_eq_of_forall_neg _ _ c.store fun r hr => by
      simpa using hall r hr
  · intro pre x post hsplit hpre hx
    simp only [edit_coord, h, hsplit]
    rw [updateFirst_append_first]
    · intro y hy
      simpa using hpre y hy
    · simpa using hx
  · intro pre e post hsplit hpre he
    have hp : patchFirst gd c.cur_coord cr.restaurant_id lng lat
        c.filtered_rstrts = some (pre ++
          ({ e with dist := some (distValue gd c.cur_coord lng lat) }) :: post) := by
      rw [hsplit]
      exact patchFirst_append_first hpre he
    refine ⟨?_, ?_⟩ <;> simp only [edit_coord, h, hp, distValue]
  · intro hnone hsome
    have hp : patchFirst gd c.cur_coord cr.restaurant_id lng lat
        c.filtered_rstrts = none := patchFirst_eq_none hnone
    have hall : (c.filtered_rstrts.all fun e => e.dist.isSome) = true := by
      rw [List.all_eq_true]
      exact hsome
    refine ⟨?_, ?_⟩ <;> simp only [edit_coord, h, hp, hall, if_true]
  · simp only [edit_coord, h]
  · simp only [edit_coord, h]

/-- A record matching entry eExA, stored and selected. -/
def rExA : Rstrt := mkR ("A") ("a") (some (some 3, some 4))

/-- A state selecting rExA whose id the first result-set entry carries. -/
def cEx3m : Controller := mkC [rExA] [eExA, eExC] (some 0) (some rExA)

/-- Witness for C3: the amended theorem at the concrete state cEx3m. -/
theorem C3_edit_coord_witness :
    ((edit_coord (gdConst 2) cEx3m (some 1) (some 1)).1.cur_rstrt =
      some { rExA with
        address := { rExA.address with
          coord := some (some 1, some 1) } }) ∧
    ((∀ r ∈ cEx3m.store, r.restaurant_id ≠ rExA.restaurant_id) →
      (edit_coord (gdConst 2) cEx3m (some 1) (some 1)).1.store =
        cEx3m.store) ∧
    (∀ pre x post, cEx3m.store = pre ++ x :: post →
      (∀ y ∈ pre, y.restaurant_id ≠ rExA.restaurant_id) →
      x.restaurant_id = rExA.restaurant_id →
      (edit_coord (gdConst 2) cEx3m (some 1) (some 1)).1.store =
        pre ++ ({ x with
          address := { x.address with
            coord := some (some 1, some 1) } }) :: post) ∧
    (∀ pre e post, cEx3m.filtered_rstrts = pre ++ e :: post →
      (∀ y ∈ pre, y.restaurant_id ≠ rExA.restaurant_id) →
      e.restaurant_id = rExA.restaurant_id →
      (edit_coord (gdConst 2) cEx3m (some 1) (some 1)).2 = false ∧
      (edit_coord (gdConst 2) cEx3m (some 1) (some 1)).1.filtered_rstrts =
        pre ++ ({ e with
          dist := some (if truthyNum (some 1) && truthyNum (some 1) then
            gdConst 2 ((some (1 : ℚ)).getD 0) ((some (1 : ℚ)).getD 0)
              cEx3m.cur_coord.1 cEx3m.cur_coord.2
            else SENTINEL) }) :: post) ∧
    ((∀ e ∈ cEx3m.filtered_rstrts, e.restaurant_id ≠ rExA.restaurant_id) →
      (∀ e ∈ cEx3m.filtered_rstrts, e.dist.isSome) →
      (edit_coord (gdConst 2) cEx3m (some 1) (some 1)).2 = false ∧
      (edit_coord (gdConst 2) cEx3m (some 1) (some 1)).1.filtered_rstrts =
        cEx3m.filtered_rstrts.mergeSort distLE) ∧
    ((edit_coord (gdConst 2) cEx3m (some 1) (some 1)).1.cur_index =
      cEx3m.cur_index) ∧
    ((edit_coord (gdConst 2) cEx3m (some 1) (some 1)).1.cur_coord =
      cEx3m.cur_coord) :=
  C3_edit_coord (gdConst 2) cEx3m rExA (some 1) (some 1) rfl

/-! ### C5 -/

/-- Stability of the sort: filtering by a predicate on which the comparison
is constantly true commutes with mergeSort. -/
theorem filter_mergeSort_eq {α : Type} (le : α → α → Bool) (p : α → Bool)
    (htrans : ∀ a b c, le a b = true → le b c = true → le a c = true)
    (htotal : ∀ a b, (le a b || le b a) = true)
    (hp : ∀ a b, p a = true → p b = true → le a b = true) (l : List α) :
    (l.mergeSort le).filter p = l.filter p := by
  have hc : (l.filter p).Pairwise (fun a b => le a b = true) :=
    List.pairwise_of_forall_mem_list fun a ha b hb =>
      hp a b (List.of_mem_filter ha) (List.of_mem_filter hb)
  have hsub : List.Sublist (l.filter p) (l.mergeSort le) :=
    List.sublist_mergeSort htrans htotal hc (List.filter_sublist l)
  have hsub2 := hsub.filter p
  rw [List.filter_filter] at hsub2
  simp only [Bool.and_self] at hsub2
  have hlen : ((l.mergeSort le).filter p).length = (l.filter p).length :=
    ((List.mergeSort_perm l le).filter p).length_eq
  exact (hsub2.eq_of_length hlen.symm).symm

/-- C5: immediately after update_rstrts the result set is non-decreasing in
dist; the sort is stable — for every distance value q the entries carrying
dist q appear exactly as they did, in the same order, in the pre-sort
results — and the result set is a permutation of the pre-sort results. -/
theorem C5_sorted_stable (gd : ℚ → ℚ → ℚ → ℚ → ℚ) (c : Controller)
    (cond : Condition) :
    ((update_rstrts gd c cond).filtered_rstrts).Pairwise
      (fun a b => a.dist.getD 0 ≤ b.dist.getD 0) ∧
    (∀ q : ℚ,
      ((update_rstrts gd c cond).filtered_rstrts.filter
        fun e => decide (e.dist = some q)) =
      ((rawResults gd c cond).filter fun e => decide (e.dist = some q))) ∧
    (List.Perm (update_rstrts gd c cond).filtered_rstrts (rawResults gd c cond)) := by
  refine ⟨?_, ?_, ?_⟩
  · have hs : ((rawResults gd c cond).mergeSort distLE).Pairwise
        (fun a b => distLE a b = true) :=
      @List.sorted_mergeSort Entry distLE distLE_trans distLE_total
        (rawResults gd c cond)
    simp only [update_rstrts]
    exact hs.imp fun hab => by simpa [distLE] using hab
  · intro q
    simp only [update_rstrts]
    apply filter_mergeSort_eq distLE _ distLE_trans distLE_total
    intro a b ha hb
    rw [decide_eq_true_eq] at ha hb
    simp [distLE, ha, hb]
  · simp only [update_rstrts]
    exact List.mergeSort_perm _ _

/-! ### C6 -/

theorem constraintOK_qkey (o : Option String) (f : String) :
    constraintOK (qkey o) f = specConstraint o f := by
  cases o with
  | none => rfl
  | some s =>
    by_cases hs : s = "" <;> simp [qkey, constraintOK, specConstraint, hs]

/-- C6: a condition key that is absent or empty is no constraint; the query
returns exactly the store records for which every present non-empty key is
a case-insensitive unanchored substring of the corresponding field
(street and zipcode against the address) — logical AND of the constraints —
and the result set after update_rstrts consists of exactly the projections
of those records.  (specMatches is written from the specification's words;
findQuery/buildQuery from the code.) -/
theorem C6_search_filter (gd : ℚ → ℚ → ℚ → ℚ → ℚ) (c : Controller)
    (cond : Condition) :
    (findQuery c.store (buildQuery cond) =
      c.store.filter (specMatches cond)) ∧
    (List.Perm (update_rstrts gd c cond).filtered_rstrts
      ((c.store.filter (specMatches cond)).map fun r =>
        { restaurant_id := r.restaurant_id, name := r.name,
          dist := some (distOf gd c.cur_coord r.address.coord) })) := by
  have hq : findQuery c.store (buildQuery cond) =
      c.store.filter (specMatches cond) := by
    apply List.filter_congr
    intro r _
    simp [matchesQuery, buildQuery, specMatches, constraintOK_qkey]
  refine ⟨hq, ?_⟩
  have hperm : List.Perm (update_rstrts gd c cond).filtered_rstrts
      (rawResults gd c cond) := List.mergeSort_perm _ _
  have hraw : rawResults gd c cond =
      (c.store.filter (specMatches cond)).map fun r =>
        { restaurant_id := r.restaurant_id, name := r.name,
          dist := some (distOf gd c.cur_coord r.address.coord) } := by
    rw [rawResults, hq]
  rw [← hraw]
  exact hperm

/-! ### C4 -/

theorem round3_le (x : ℝ) : round3 x ≤ x + 1 / 1000 := by
  unfold round3
  have h1 : ((round (x * 1000) : ℤ) : ℝ) ≤ x * 1000 + 1 / 2 := by
    rw [round_eq]
    have h2 : ((⌊x * 1000 + 1 / 2⌋ : ℤ) : ℝ) ≤ x * 1000 + 1 / 2 :=
      Int.floor_le _
    exact_mod_cast h2
  linarith

theorem round3_nonneg {x : ℝ} (hx : 0 ≤ x) : 0 ≤ round3 x := by
  unfold round3
  have h1 : (0 : ℤ) ≤ round (x * 1000) := by
    rw [round_eq]
    apply Int.floor_nonneg.mpr
    nlinarith
  have h2 : (0 : ℝ) ≤ ((round (x * 1000) : ℤ) : ℝ) := by exact_mod_cast h1
  linarith

theorem round3_haversine_nonneg (A : ℝ) :
    0 ≤ round3 (2 * Real.arcsin (Real.sqrt A) * 6371 * 1000 / 1000) := by
  apply round3_nonneg
  have h1 : 0 ≤ Real.arcsin (Real.sqrt A) :=
    Real.arcsin_nonneg.mpr (Real.sqrt_nonneg A)
  have h2 : (0 : ℝ) ≤ 2 * Real.arcsin (Real.sqrt A) * 6371 * 1000 := by
    nlinarith
  exact div_nonneg h2 (by norm_num)

theorem round3_haversine_lt (A : ℝ) :
    round3 (2 * Real.arcsin (Real.sqrt A) * 6371 * 1000 / 1000) <
      99999.99 := by
  have hs : Real.arcsin (Real.sqrt A) ≤ Real.pi / 2 :=
    Real.arcsin_le_pi_div_two _
  have hpi : Real.pi ≤ 4 := Real.pi_le_four
  have hb : 2 * Real.arcsin (Real.sqrt A) * 6371 * 1000 / 1000 ≤ 25484 := by
    nlinarith
  have h2 := round3_le (2 * Real.arcsin (Real.sqrt A) * 6371 * 1000 / 1000)
  have : (25484 : ℝ) + 1 / 1000 < 99999.99 := by norm_num
  linarith

theorem distOf_le_sentinel (gd : ℚ → ℚ → ℚ → ℚ → ℚ) (ref : ℚ × ℚ)
    (co : Option (Option ℚ × Option ℚ))
    (hgd : ∀ x y u v, gd x y u v < SENTINEL) :
    distOf gd ref co ≤ SENTINEL := by
  rcases co with _ | ⟨c0, c1⟩
  · exact le_refl _
  · simp only [distOf, distValue]
    split
    · exact le_of_lt (hgd _ _ _ _)
    · exact le_refl _

theorem mem_update_rstrts_dist (gd : ℚ → ℚ → ℚ → ℚ → ℚ) (c : Controller)
    (cond : Condition) {e : Entry}
    (he : e ∈ (update_rstrts gd c cond).filtered_rstrts) :
    ∃ co, e.dist = some (distOf gd c.cur_coord co) := by
  simp only [update_rstrts, List.mem_mergeSort, rawResults,
    List.mem_map] at he
  obtain ⟨r, _, rfl⟩ := he
  exact ⟨r.address.coord, rfl⟩

/-- A record whose coordinate components are both present, longitude zero. -/
def rEx4 : Rstrt := mkR ("Z") ("z") (some (some 0, some 40))

/-- A state storing only rEx4. -/
def cEx4 : Controller := mkC [rEx4] [] none none

/-- C4, counterexample to the claim as stated: the record's coordinate and
both of its components are present (nothing is missing), yet the search
assigns the sentinel — the truthiness test treats the zero longitude like a
missing value — instead of the geodistance value the claim requires. -/
theorem C4_counterexample :
    rEx4.address.coord = some (some 0, some 40) ∧
    (update_rstrts (gdConst 7) cEx4 emptyCondition).filtered_rstrts =
      [{ restaurant_id := "Z", name := "z", dist := some SENTINEL }] ∧
    gdConst 7 0 40 0 0 ≠ SENTINEL := by
  refine ⟨rfl, ?_, by norm_num [gdConst, SENTINEL]⟩
  have hraw : rawResults (gdConst 7) cEx4 emptyCondition =
      [{ restaurant_id := "Z", name := "z", dist := some SENTINEL }] := rfl
  simp only [update_rstrts, hraw, List.mergeSort_singleton]

/-- C4 (amended): a search-result entry's distance is the sentinel 99999.99
exactly when the record's coordinate is null or one of its components is
null or zero (a present zero component also yields the sentinel, unlike the
claim's "missing"); when both components are non-null and non-zero the
distance is the geodistance of the coordinate against the reference point;
every result entry carries the distance computed this way from some stored
record, and — whenever the distance function stays below the sentinel, as
the real geodistance does (it is nonnegative and at most about 20016, hence
below 99999.99) — sentinel entries sort after every entry with a real
distance. -/
theorem C4_sentinel_distance :
    (∀ (gd : ℚ → ℚ → ℚ → ℚ → ℚ) (ref : ℚ × ℚ)
      (co : Option (Option ℚ × Option ℚ)),
      (∀ x y u v, gd x y u v ≠ SENTINEL) →
      ((distOf gd ref co = SENTINEL ↔
        ¬ ∃ lng lat : ℚ, co = some (some lng, some lat) ∧
          lng ≠ 0 ∧ lat ≠ 0) ∧
      (∀ lng lat : ℚ, co = some (some lng, some lat) → lng ≠ 0 → lat ≠ 0 →
        distOf gd ref co = gd lng lat ref.1 ref.2))) ∧
    (∀ (gd : ℚ → ℚ → ℚ → ℚ → ℚ) (c : Controller) (cond : Condition),
      ∀ e ∈ (update_rstrts gd c cond).filtered_rstrts,
        ∃ r, r ∈ c.store ∧ e.restaurant_id = r.restaurant_id ∧
          e.dist = some (distOf gd c.cur_coord r.address.coord)) ∧
    (∀ (gd : ℚ → ℚ → ℚ → ℚ → ℚ) (c : Controller) (cond : Condition),
      (∀ x y u v, gd x y u v < SENTINEL) →
      ((update_rstrts gd c cond).filtered_rstrts).Pairwise
        (fun a b => a.dist = some SENTINEL → b.dist = some SENTINEL)) ∧
    (∀ a b u v : ℝ, 0 ≤ geodistance a b u v ∧
      geodistance a b u v < 99999.99) := by
  refine ⟨?_, ?_, ?_, ?_⟩
  · intro gd ref co hgd
    constructor
    · rcases co with _ | ⟨c0, c1⟩
      · constructor
        · intro _ hex
          obtain ⟨lng, lat, hco, _, _⟩ := hex
          exact Option.noConfusion hco
        · intro _
          rfl
      · rcases c0 with _ | x
        · constructor
          · intro _ hex
            obtain ⟨lng, lat, hco, _, _⟩ := hex
            simp at hco
          · intro _
            simp [distOf, distValue, truthyNum]
        · rcases c1 with _ | y
          · constructor
            · intro _ hex
              obtain ⟨lng, lat, hco, _, _⟩ := hex
              simp at hco
            · intro _
              simp [distOf, distValue, truthyNum]
          · simp only [distOf, distValue, truthyNum]
            by_cases hx : x = 0
            · simp [hx]
            · by_cases hy : y = 0
              · simp [hx, hy]
              · simp [hx, hy, hgd x y ref.1 ref.2]
    · intro lng lat hco hlng hlat
      subst hco
      simp [distOf, distValue, truthyNum, hlng, hlat]
  · intro gd c cond e he
    simp only [update_rstrts, List.mem_mergeSort, rawResults,
      List.mem_map] at he
    obtain ⟨r, hr, rfl⟩ := he
    simp only [findQuery] at hr
    exact ⟨r, List.mem_of_mem_filter hr, rfl, rfl⟩
  · intro gd c cond hgd2
    have hs : ((update_rstrts gd c cond).filtered_rstrts).Pairwise
        (fun a b => distLE a b = true) := by
      simp only [update_rstrts]
      exact @List.sorted_mergeSort Entry distLE distLE_trans distLE_total
        (rawResults gd c cond)
    rw [List.pairwise_iff_getElem] at hs ⊢
    intro i j hi hj hij
    intro hsent
    have hdist := hs i j hi hj hij
    have hmemj : (update_rstrts gd c cond).filtered_rstrts[j] ∈
        (update_rstrts gd c cond).filtered_rstrts := List.getElem_mem hj
    obtain ⟨co, hco⟩ := mem_update_rstrts_dist gd c cond hmemj
    have hq : distOf gd c.cur_coord co ≤ SENTINEL :=
      distOf_le_sentinel gd c.cur_coord co hgd2
    simp only [distLE, hsent, hco, Option.getD_some, decide_eq_true_eq]
      at hdist
    have : distOf gd c.cur_coord co = SENTINEL := le_antisymm hq hdist
    rw [hco, this]
  · intro a b u v
    constructor
    · simp only [geodistance]
      exact round3_haversine_nonneg _
    · simp only [geodistance]
      exact round3_haversine_lt _

/-- Witness for C4: the distance characterization applied at a concrete
distance function, reference point and coordinates. -/
theorem C4_sentinel_distance_witness :
    distOf (gdConst 7) (0, 0) (some (some 1, some 2)) =
      gdConst 7 1 2 (0 : ℚ) (0 : ℚ) ∧
    distOf (gdConst 7) (0, 0) (some (some 0, some 40)) = SENTINEL := by
  constructor
  · exact (C4_sentinel_distance.1 (gdConst 7) (0, 0)
      (some (some 1, some 2)) (by intro x y u v; norm_num [gdConst, SENTINEL])).2 1 2 rfl
      (by decide) (by decide)
  · exact ((C4_sentinel_distance.1 (gdConst 7) (0, 0)
      (some (some 0, some 40)) (by intro x y u v; norm_num [gdConst, SENTINEL])).1).mpr (by
        rintro ⟨lng, lat, hco, hlng, hlat⟩
        simp at hco
        exact hlng hco.1.symm)

end RestDemo
